import Mathlib

/-!
Verification of the document-intake / field-reconciliation core of the
shipment-document processing frontend.

The TypeScript sources embedded here:
  * `src/web/src/lib/dataTransform.ts`   (aggregateExtractedData,
    transformApiDataToFormData, transformFormDataToApiData)
  * `src/web/src/lib/fileAnalysis.ts`    (generateFileFingerprint, analyzeFile)
  * `src/web/src/hooks/useDocuments.ts`  (addDocuments, processDocuments)

Modelling conventions:
  * JavaScript numbers are modelled as rationals (ℚ).  All numeric values
    reaching `aggregateExtractedData` come from `response.json()` and JSON
    admits no NaN/Infinity, so `Option ℚ` (with `none` for `null`/missing)
    is a faithful model of the `number | null` fields of `ExtractedData`.
  * `parseInt`/`parseFloat` can produce NaN, so the value space of the
    numbers produced by `transformFormDataToApiData` is the separate type
    `JsNumber` with an explicit `nan` constructor.
  * JavaScript string truthiness is the test `s ≠ ""`.
  * `s.split(sep)[0]` (with `sep = "T"`) is the prefix of `s` before the
    first occurrence of `'T'` (the whole string when `'T'` does not occur);
    it is embedded as a `takeWhile` on the character list.
  * `Math.round x` is `⌊x + 1/2⌋`, which is exactly Mathlib's `round`;
    `x.toFixed 2` renders `round (x * 100) / 100`; fields holding the
    rendered decimal string are modelled by the rounded rational itself
    (`none` for the empty string).
-/

namespace ShipDocs

/-- The `ExtractedData` interface (one FieldSet of the oracle response), as
parsed from JSON: text fields are `Option String`, numeric fields
`Option ℚ`; `none` models both `null` and a missing key. -/
structure ExtractedData where
  bill_of_lading_number : Option String := none
  container_number : Option String := none
  consignee_name : Option String := none
  consignee : Option String := none
  date : Option String := none
  line_items_count : Option ℚ := none
  average_gross_weight : Option ℚ := none
  average_price : Option ℚ := none
  deriving DecidableEq, Repr

/-- The `DocumentFormData` record as produced by `aggregateExtractedData`.
In TypeScript all eight fields are strings; the three numeric fields hold
either `''` or the decimal rendering of a number, which we model as
`Option ℚ` (`none` for `''`, `some q` for the rendering of `q`). -/
structure AggregatedForm where
  billOfLadingNumber : String := ""
  containerNumber : String := ""
  consigneeName : String := ""
  consigneeAddress : String := ""
  date : String := ""
  lineItemsCount : Option ℚ := none
  averageGrossWeight : Option ℚ := none
  averagePrice : Option ℚ := none
  deriving DecidableEq, Repr

/-- Embedding of the JavaScript expression `s.split('T')[0]`: the prefix of
`s` before the first `'T'`. -/
def splitTHead (s : String) : String :=
  String.mk (s.data.takeWhile (fun c => c != 'T'))

/-- One text-field update of the aggregation loop:
`if (!acc && v) acc = v` where `v` is the (nullable) field value. -/
def updateText (acc : String) (v : Option String) : String :=
  if acc = "" then
    match v with
    | some s => if s = "" then acc else s
    | none => acc
  else acc

/-- The date update of the aggregation loop:
`if (!acc.date && v) acc.date = v.split('T')[0]`. -/
def updateDate (acc : String) (v : Option String) : String :=
  if acc = "" then
    match v with
    | some s => if s = "" then acc else splitTHead s
    | none => acc
  else acc

/-- One iteration of the first loop of `aggregateExtractedData`
(dataTransform.ts lines 59–75): first-truthy-writer-wins for the five
text fields; the numeric fields are untouched. -/
def textStep (acc : AggregatedForm) (d : ExtractedData) : AggregatedForm :=
  { acc with
    billOfLadingNumber := updateText acc.billOfLadingNumber d.bill_of_lading_number
    containerNumber := updateText acc.containerNumber d.container_number
    consigneeName := updateText acc.consigneeName d.consignee_name
    consigneeAddress := updateText acc.consigneeAddress d.consignee
    date := updateDate acc.date d.date }

/-- The six numeric accumulators of the second loop of
`aggregateExtractedData` (dataTransform.ts lines 78–98). -/
structure NumAcc where
  totalLineItems : ℚ := 0
  totalWeight : ℚ := 0
  totalPrice : ℚ := 0
  countLineItems : ℕ := 0
  countWeight : ℕ := 0
  countPrice : ℕ := 0
  deriving DecidableEq, Repr

/-- One sum/count update for a single nullable numeric field. -/
def sumCount (p : ℚ × ℕ) (v : Option ℚ) : ℚ × ℕ :=
  match v with
  | some x => (p.1 + x, p.2 + 1)
  | none => p

/-- One iteration of the numeric loop of `aggregateExtractedData`. -/
def numStep (n : NumAcc) (d : ExtractedData) : NumAcc :=
  let li := sumCount (n.totalLineItems, n.countLineItems) d.line_items_count
  let w := sumCount (n.totalWeight, n.countWeight) d.average_gross_weight
  let p := sumCount (n.totalPrice, n.countPrice) d.average_price
  { totalLineItems := li.1, countLineItems := li.2
    totalWeight := w.1, countWeight := w.2
    totalPrice := p.1, countPrice := p.2 }

/-- Embedding of `x.toFixed(2)` on the value level: round to two decimal
places (ties handled as by `Math`-style rounding `⌊x·100 + 1/2⌋ / 100`). -/
def toFixed2 (q : ℚ) : ℚ := (round (q * 100) : ℚ) / 100

/-- The all-empty `DocumentFormData` record used both for the empty-input
early return and as the loop seed. -/
def emptyForm : AggregatedForm := {}

/-- Embedding of `aggregateExtractedData` (dataTransform.ts lines 29–112):
filter out null entries, early-return the empty record on an empty list,
otherwise run the text-field first-writer loop and the numeric sum loop and
fill the numeric fields from the totals. -/
def aggregateExtractedData (arr : List (Option ExtractedData)) : AggregatedForm :=
  let validData := arr.filterMap id
  if validData.isEmpty then emptyForm
  else
    let t := validData.foldl textStep emptyForm
    let n := validData.foldl numStep {}
    { t with
      lineItemsCount := if 0 < n.countLineItems then some n.totalLineItems else none
      averageGrossWeight :=
        if 0 < n.countWeight then some (toFixed2 (n.totalWeight / n.countWeight)) else none
      averagePrice :=
        if 0 < n.countPrice then some (toFixed2 (n.totalPrice / n.countPrice)) else none }

/-- First non-empty string of a list, `""` when there is none: the value the
first-truthy-writer loop computes for one field. -/
def firstNonEmptyStr (l : List String) : String :=
  (l.filter (fun s => s != "")).headD ""

lemma foldl_updateText (l : List (Option String)) (a : String) :
    l.foldl updateText a = if a = "" then firstNonEmptyStr (l.filterMap id) else a := by
  induction l generalizing a with
  | nil =>
    by_cases h : a = "" <;> simp [firstNonEmptyStr, h]
  | cons v l ih =>
    by_cases h : a = ""
    · subst h
      cases v with
      | none => simp [updateText, ih, List.filterMap_cons]
      | some s =>
        by_cases hs : s = "" <;>
          simp [updateText, ih, List.filterMap_cons, firstNonEmptyStr, hs, List.filter_cons]
    · simp [updateText, h, ih]

lemma foldl_updateDate (l : List (Option String)) (a : String) :
    l.foldl updateDate a =
      if a = "" then firstNonEmptyStr ((l.filterMap id).map splitTHead) else a := by
  induction l generalizing a with
  | nil =>
    by_cases h : a = "" <;> simp [firstNonEmptyStr, h]
  | cons v l ih =>
    by_cases h : a = ""
    · subst h
      cases v with
      | none => simp [updateDate, ih, List.filterMap_cons]
      | some s =>
        by_cases hs : s = ""
        · simp [updateDate, ih, List.filterMap_cons, firstNonEmptyStr, hs, List.filter_cons,
            splitTHead]
        · by_cases ht : splitTHead s = "" <;>
            simp [updateDate, ih, List.filterMap_cons, firstNonEmptyStr, hs, ht,
              List.filter_cons]
    · simp [updateDate, h, ih]

lemma foldl_textStep_bol (l : List ExtractedData) (acc : AggregatedForm) :
    (l.foldl textStep acc).billOfLadingNumber =
      (l.map (fun d => d.bill_of_lading_number)).foldl updateText acc.billOfLadingNumber := by
  induction l generalizing acc with
  | nil => rfl
  | cons d l ih => simp [List.foldl_cons, ih, textStep]

lemma foldl_textStep_container (l : List ExtractedData) (acc : AggregatedForm) :
    (l.foldl textStep acc).containerNumber =
      (l.map (fun d => d.container_number)).foldl updateText acc.containerNumber := by
  induction l generalizing acc with
  | nil => rfl
  | cons d l ih => simp [List.foldl_cons, ih, textStep]

lemma foldl_textStep_name (l : List ExtractedData) (acc : AggregatedForm) :
    (l.foldl textStep acc).consigneeName =
      (l.map (fun d => d.consignee_name)).foldl updateText acc.consigneeName := by
  induction l generalizing acc with
  | nil => rfl
  | cons d l ih => simp [List.foldl_cons, ih, textStep]

lemma foldl_textStep_address (l : List ExtractedData) (acc : AggregatedForm) :
    (l.foldl textStep acc).consigneeAddress =
      (l.map (fun d => d.consignee)).foldl updateText acc.consigneeAddress := by
  induction l generalizing acc with
  | nil => rfl
  | cons d l ih => simp [List.foldl_cons, ih, textStep]

lemma foldl_textStep_date (l : List ExtractedData) (acc : AggregatedForm) :
    (l.foldl textStep acc).date =
      (l.map (fun d => d.date)).foldl updateDate acc.date := by
  induction l generalizing acc with
  | nil => rfl
  | cons d l ih => simp [List.foldl_cons, ih, textStep]

lemma foldl_textStep_numerics (l : List ExtractedData) (acc : AggregatedForm) :
    (l.foldl textStep acc).lineItemsCount = acc.lineItemsCount ∧
      (l.foldl textStep acc).averageGrossWeight = acc.averageGrossWeight ∧
      (l.foldl textStep acc).averagePrice = acc.averagePrice := by
  induction l generalizing acc with
  | nil => exact ⟨rfl, rfl, rfl⟩
  | cons d l ih => simpa [List.foldl_cons, textStep] using ih (textStep acc d)

lemma foldl_sumCount (l : List (Option ℚ)) (p : ℚ × ℕ) :
    l.foldl sumCount p = (p.1 + (l.filterMap id).sum, p.2 + (l.filterMap id).length) := by
  induction l generalizing p with
  | nil => simp
  | cons v l ih =>
    cases v with
    | none => simp [sumCount, ih, List.filterMap_cons]
    | some x =>
      have hfm : List.filterMap id (some x :: l) = x :: List.filterMap id l := by simp
      simp only [List.foldl_cons, sumCount, ih, hfm, List.sum_cons, List.length_cons]
      exact Prod.ext (by ring) (by omega)

lemma foldl_numStep_li (l : List ExtractedData) (n : NumAcc) :
    (l.foldl numStep n).totalLineItems =
        ((l.map (fun d => d.line_items_count)).foldl sumCount
          (n.totalLineItems, n.countLineItems)).1 ∧
      (l.foldl numStep n).countLineItems =
        ((l.map (fun d => d.line_items_count)).foldl sumCount
          (n.totalLineItems, n.countLineItems)).2 := by
  induction l generalizing n with
  | nil => exact ⟨rfl, rfl⟩
  | cons d l ih =>
    simpa [List.foldl_cons, numStep] using ih (numStep n d)

lemma foldl_numStep_w (l : List ExtractedData) (n : NumAcc) :
    (l.foldl numStep n).totalWeight =
        ((l.map (fun d => d.average_gross_weight)).foldl sumCount
          (n.totalWeight, n.countWeight)).1 ∧
      (l.foldl numStep n).countWeight =
        ((l.map (fun d => d.average_gross_weight)).foldl sumCount
          (n.totalWeight, n.countWeight)).2 := by
  induction l generalizing n with
  | nil => exact ⟨rfl, rfl⟩
  | cons d l ih =>
    simpa [List.foldl_cons, numStep] using ih (numStep n d)

lemma foldl_numStep_p (l : List ExtractedData) (n : NumAcc) :
    (l.foldl numStep n).totalPrice =
        ((l.map (fun d => d.average_price)).foldl sumCount
          (n.totalPrice, n.countPrice)).1 ∧
      (l.foldl numStep n).countPrice =
        ((l.map (fun d => d.average_price)).foldl sumCount
          (n.totalPrice, n.countPrice)).2 := by
  induction l generalizing n with
  | nil => exact ⟨rfl, rfl⟩
  | cons d l ih =>
    simpa [List.foldl_cons, numStep] using ih (numStep n d)

lemma aggregate_bol (arr : List (Option ExtractedData)) :
    (aggregateExtractedData arr).billOfLadingNumber =
      firstNonEmptyStr ((arr.filterMap id).filterMap (fun d => d.bill_of_lading_number)) := by
  by_cases h : (arr.filterMap id).isEmpty
  · rw [List.isEmpty_iff] at h
    simp [aggregateExtractedData, h, emptyForm, firstNonEmptyStr]
  · simp only [aggregateExtractedData]
    rw [if_neg (by simpa using h)]
    simp [foldl_textStep_bol, foldl_updateText, emptyForm, List.filterMap_map]

lemma aggregate_container (arr : List (Option ExtractedData)) :
    (aggregateExtractedData arr).containerNumber =
      firstNonEmptyStr ((arr.filterMap id).filterMap (fun d => d.container_number)) := by
  by_cases h : (arr.filterMap id).isEmpty
  · rw [List.isEmpty_iff] at h
    simp [aggregateExtractedData, h, emptyForm, firstNonEmptyStr]
  · simp only [aggregateExtractedData]
    rw [if_neg (by simpa using h)]
    simp [foldl_textStep_container, foldl_updateText, emptyForm, List.filterMap_map]

lemma aggregate_name (arr : List (Option ExtractedData)) :
    (aggregateExtractedData arr).consigneeName =
      firstNonEmptyStr ((arr.filterMap id).filterMap (fun d => d.consignee_name)) := by
  by_cases h : (arr.filterMap id).isEmpty
  · rw [List.isEmpty_iff] at h
    simp [aggregateExtractedData, h, emptyForm, firstNonEmptyStr]
  · simp only [aggregateExtractedData]
    rw [if_neg (by simpa using h)]
    simp [foldl_textStep_name, foldl_updateText, emptyForm, List.filterMap_map]

lemma aggregate_address (arr : List (Option ExtractedData)) :
    (aggregateExtractedData arr).consigneeAddress =
      firstNonEmptyStr ((arr.filterMap id).filterMap (fun d => d.consignee)) := by
  by_cases h : (arr.filterMap id).isEmpty
  · rw [List.isEmpty_iff] at h
    simp [aggregateExtractedData, h, emptyForm, firstNonEmptyStr]
  · simp only [aggregateExtractedData]
    rw [if_neg (by simpa using h)]
    simp [foldl_textStep_address, foldl_updateText, emptyForm, List.filterMap_map]

lemma aggregate_date (arr : List (Option ExtractedData)) :
    (aggregateExtractedData arr).date =
      firstNonEmptyStr (((arr.filterMap id).filterMap (fun d => d.date)).map splitTHead) := by
  by_cases h : (arr.filterMap id).isEmpty
  · rw [List.isEmpty_iff] at h
    simp [aggregateExtractedData, h, emptyForm, firstNonEmptyStr]
  · simp only [aggregateExtractedData]
    rw [if_neg (by simpa using h)]
    simp [foldl_textStep_date, foldl_updateDate, emptyForm, List.filterMap_map]

lemma aggregate_lineItems (arr : List (Option ExtractedData)) :
    (aggregateExtractedData arr).lineItemsCount =
      (if ((arr.filterMap id).filterMap (fun d => d.line_items_count)).isEmpty then none
       else some ((arr.filterMap id).filterMap (fun d => d.line_items_count)).sum) := by
  by_cases h : (arr.filterMap id).isEmpty
  · rw [List.isEmpty_iff] at h
    simp [aggregateExtractedData, h, emptyForm]
  · simp only [aggregateExtractedData]
    rw [if_neg (by simpa using h)]
    have hli := foldl_numStep_li (arr.filterMap id) {}
    rw [foldl_sumCount] at hli
    simp only [List.filterMap_map] at hli
    simp only [foldl_textStep_numerics, hli, foldl_sumCount, List.filterMap_map]
    cases hv : (arr.filterMap id).filterMap (fun d => d.line_items_count) with
    | nil => simp [hv]
    | cons x vs => simp [hv, Nat.succ_pos]

lemma aggregate_weight (arr : List (Option ExtractedData)) :
    (aggregateExtractedData arr).averageGrossWeight =
      (if ((arr.filterMap id).filterMap (fun d => d.average_gross_weight)).isEmpty then none
       else
         some (toFixed2
           (((arr.filterMap id).filterMap (fun d => d.average_gross_weight)).sum /
             ((arr.filterMap id).filterMap (fun d => d.average_gross_weight)).length))) := by
  by_cases h : (arr.filterMap id).isEmpty
  · rw [List.isEmpty_iff] at h
    simp [aggregateExtractedData, h, emptyForm]
  · simp only [aggregateExtractedData]
    rw [if_neg (by simpa using h)]
    have hw := foldl_numStep_w (arr.filterMap id) {}
    rw [foldl_sumCount] at hw
    simp only [List.filterMap_map] at hw
    simp only [foldl_textStep_numerics, hw, foldl_sumCount, List.filterMap_map]
    cases hv : (arr.filterMap id).filterMap (fun d => d.average_gross_weight) with
    | nil => simp [hv]
    | cons x vs => simp [hv, Nat.succ_pos]

lemma aggregate_price (arr : List (Option ExtractedData)) :
    (aggregateExtractedData arr).averagePrice =
      (if ((arr.filterMap id).filterMap (fun d => d.average_price)).isEmpty then none
       else
         some (toFixed2
           (((arr.filterMap id).filterMap (fun d => d.average_price)).sum /
             ((arr.filterMap id).filterMap (fun d => d.average_price)).length))) := by
  by_cases h : (arr.filterMap id).isEmpty
  · rw [List.isEmpty_iff] at h
    simp [aggregateExtractedData, h, emptyForm]
  · simp only [aggregateExtractedData]
    rw [if_neg (by simpa using h)]
    have hp := foldl_numStep_p (arr.filterMap id) {}
    rw [foldl_sumCount] at hp
    simp only [List.filterMap_map] at hp
    simp only [foldl_textStep_numerics, hp, foldl_sumCount, List.filterMap_map]
    cases hv : (arr.filterMap id).filterMap (fun d => d.average_price) with
    | nil => simp [hv]
    | cons x vs => simp [hv, Nat.succ_pos]

lemma findSome?_eq_head?_filterMap {α β : Type} (f : α → Option β) (l : List α) :
    l.findSome? f = (l.filterMap f).head? := by
  induction l with
  | nil => rfl
  | cons a l ih =>
    cases h : f a with
    | none => rw [List.findSome?_cons, h, List.filterMap_cons, h]; exact ih
    | some b => rw [List.findSome?_cons, h, List.filterMap_cons, h]; rfl

lemma firstNonEmptyStr_of_wf (l : List ExtractedData) (f : ExtractedData → Option String)
    (h : ∀ d ∈ l, ∀ s, f d = some s → s ≠ "") :
    firstNonEmptyStr (l.filterMap f) = (l.findSome? f).getD "" := by
  have h2 : ∀ s ∈ l.filterMap f, (fun s => s != "") s = true := by
    intro s hs
    rw [List.mem_filterMap] at hs
    obtain ⟨d, hd, hfd⟩ := hs
    simpa using h d hd s hfd
  rw [firstNonEmptyStr, List.filter_eq_self.mpr h2, findSome?_eq_head?_filterMap]
  cases l.filterMap f <;> simp

lemma firstNonEmptyStr_ne_iff (l : List String) :
    firstNonEmptyStr l ≠ "" ↔ ∃ s ∈ l, s ≠ "" := by
  rw [firstNonEmptyStr]
  rcases h : l.filter (fun s => s != "") with _ | ⟨x, xs⟩
  · have hall : ∀ s ∈ l, s = "" := by
      intro s hs
      have := List.filter_eq_nil_iff.mp h s hs
      simpa using this
    simp only [List.headD_nil, ne_eq, not_true_eq_false, false_iff, not_exists]
    intro s
    rintro ⟨hs, hne⟩
    exact hne (hall s hs)
  · have hx : x ∈ l.filter (fun s => s != "") := by
      rw [h]; exact List.mem_cons_self x xs
    rw [List.mem_filter] at hx
    simp only [List.headD_cons]
    constructor
    · intro _; exact ⟨x, hx.1, by simpa using hx.2⟩
    · intro _; simpa using hx.2

/-- Claim C2: the reconciled line-item count is the sum of `line_items_count`
over exactly the FieldSets whose value is non-null, and is null (absent)
when no FieldSet reports a value; in particular counts 10 and 8 reconcile to
18, and a single null count reconciles to null. -/
theorem lineItemsCount_is_sum_of_reported (arr : List (Option ExtractedData)) :
    (let vs := (arr.filterMap id).filterMap (fun d => d.line_items_count)
     (aggregateExtractedData arr).lineItemsCount =
       if vs.isEmpty then none else some vs.sum) ∧
    (aggregateExtractedData
      [some { line_items_count := some 10 },
       some { line_items_count := some 8 }]).lineItemsCount = some 18 ∧
    (aggregateExtractedData [some { line_items_count := none }]).lineItemsCount = none := by
  refine ⟨aggregate_lineItems arr, ?_, ?_⟩
  · rw [aggregate_lineItems]
    simp [List.filterMap_cons]
    norm_num
  · rw [aggregate_lineItems]
    simp [List.filterMap_cons]

/-- Claim C3: the reconciled average gross weight and average price are the
arithmetic means of the non-null reported values, rounded to two decimal
places, and null when no FieldSet reports a value; in particular prices
100 and 200 reconcile to 150. -/
theorem averages_are_rounded_means (arr : List (Option ExtractedData)) :
    (let ws := (arr.filterMap id).filterMap (fun d => d.average_gross_weight)
     (aggregateExtractedData arr).averageGrossWeight =
       if ws.isEmpty then none else some (toFixed2 (ws.sum / ws.length))) ∧
    (let ps := (arr.filterMap id).filterMap (fun d => d.average_price)
     (aggregateExtractedData arr).averagePrice =
       if ps.isEmpty then none else some (toFixed2 (ps.sum / ps.length))) ∧
    (aggregateExtractedData
      [some { average_price := some 100 },
       some { average_price := some 200 }]).averagePrice = some 150 := by
  refine ⟨aggregate_weight arr, aggregate_price arr, ?_⟩
  rw [aggregate_price]
  simp [List.filterMap_cons, toFixed2]
  norm_num [round_eq]

lemma firstNonEmptyStr_pair (v : String) : firstNonEmptyStr [v, v] = v := by
  by_cases hv : v = "" <;> simp [firstNonEmptyStr, List.filter_cons, hv]

lemma firstNonEmptyStr_cons_empty (l : List String) :
    firstNonEmptyStr ("" :: l) = firstNonEmptyStr l := by
  simp [firstNonEmptyStr, List.filter_cons]

/-- Generic skip-empty fact for one text field of the aggregation, stated via
the field characterization `hproj`. -/
lemma textField_skip_empty (arr : List (Option ExtractedData)) (a : ExtractedData)
    (f : ExtractedData → Option String) (proj : AggregatedForm → String)
    (hproj : ∀ ar, proj (aggregateExtractedData ar) =
      firstNonEmptyStr ((ar.filterMap id).filterMap f))
    (ha : f a = some "") :
    proj (aggregateExtractedData (some a :: arr)) = proj (aggregateExtractedData arr) := by
  rw [hproj, hproj]
  simp [List.filterMap_cons, ha, firstNonEmptyStr_cons_empty]

/-- Generic later-writer fact: an empty first value does not stop a later
non-empty value from supplying the field. -/
lemma textField_later_supplies (a b : ExtractedData) (s : String)
    (f : ExtractedData → Option String) (proj : AggregatedForm → String)
    (hproj : ∀ ar, proj (aggregateExtractedData ar) =
      firstNonEmptyStr ((ar.filterMap id).filterMap f))
    (ha : f a = some "") (hb : f b = some s) (hs : s ≠ "") :
    proj (aggregateExtractedData [some a, some b]) = s := by
  rw [hproj]
  simp [List.filterMap_cons, ha, hb, firstNonEmptyStr, List.filter_cons, hs]

/-- Generic non-emptiness guarantee for one text field. -/
lemma textField_nonempty (arr : List (Option ExtractedData))
    (f : ExtractedData → Option String) (proj : AggregatedForm → String)
    (hproj : ∀ ar, proj (aggregateExtractedData ar) =
      firstNonEmptyStr ((ar.filterMap id).filterMap f))
    (h : ∃ d ∈ arr.filterMap id, ∃ t, f d = some t ∧ t ≠ "") :
    proj (aggregateExtractedData arr) ≠ "" := by
  rw [hproj, firstNonEmptyStr_ne_iff]
  obtain ⟨d, hd, t, hft, ht⟩ := h
  exact ⟨t, List.mem_filterMap.mpr ⟨d, hd, hft⟩, ht⟩

/-- FieldSet carrying only a bill-of-lading number "A". -/
def fsA : ExtractedData := { bill_of_lading_number := some "A" }

/-- FieldSet carrying only a bill-of-lading number "B". -/
def fsB : ExtractedData := { bill_of_lading_number := some "B" }

/-- FieldSet whose date value has an empty component before the first 'T'. -/
def fsT : ExtractedData := { date := some "T08:30" }

/-- FieldSet carrying only a plain date. -/
def fsD : ExtractedData := { date := some "2024-01-02" }

/-- Claim C1 counterexample: reconciling the FieldSets
`[{date: "T08:30"}, {date: "2024-01-02"}]` stores the date `"2024-01-02"`,
which is the value of the second FieldSet, although the first FieldSet's
date is non-null — so the first FieldSet with a non-null value does not
supply the field and a later FieldSet does change it. -/
theorem firstWriter_date_counterexample :
    (aggregateExtractedData [some fsT, some fsD]).date = "2024-01-02" ∧
      fsT.date = some "T08:30" ∧ ("2024-01-02" : String) ≠ "T08:30" := by
  refine ⟨?_, rfl, by decide⟩
  rw [aggregate_date]
  simp [List.filterMap_cons, fsT, fsD, splitTHead, firstNonEmptyStr, List.filter_cons]

/-- Claim C1 (amended): for FieldSet sequences whose non-null text values are
non-empty (the data-model invariant), each of the four identifier fields is
the first non-null value in input order (later FieldSets never change it);
the date field is the first non-empty date component (prefix before the
first 'T') of the non-null date values; in particular
`[{bol: "A"}, {bol: "B"}]` reconciles to bill-of-lading number `"A"`. -/
theorem firstWriter_wins_for_text_fields (arr : List (Option ExtractedData))
    (hbol : ∀ d ∈ arr.filterMap id, ∀ s, d.bill_of_lading_number = some s → s ≠ "")
    (hcont : ∀ d ∈ arr.filterMap id, ∀ s, d.container_number = some s → s ≠ "")
    (hname : ∀ d ∈ arr.filterMap id, ∀ s, d.consignee_name = some s → s ≠ "")
    (haddr : ∀ d ∈ arr.filterMap id, ∀ s, d.consignee = some s → s ≠ "") :
    (aggregateExtractedData arr).billOfLadingNumber =
        ((arr.filterMap id).findSome? (fun d => d.bill_of_lading_number)).getD "" ∧
      (aggregateExtractedData arr).containerNumber =
        ((arr.filterMap id).findSome? (fun d => d.container_number)).getD "" ∧
      (aggregateExtractedData arr).consigneeName =
        ((arr.filterMap id).findSome? (fun d => d.consignee_name)).getD "" ∧
      (aggregateExtractedData arr).consigneeAddress =
        ((arr.filterMap id).findSome? (fun d => d.consignee)).getD "" ∧
      (aggregateExtractedData arr).date =
        firstNonEmptyStr (((arr.filterMap id).filterMap (fun d => d.date)).map splitTHead) ∧
      (aggregateExtractedData [some fsA, some fsB]).billOfLadingNumber = "A" := by
  refine ⟨?_, ?_, ?_, ?_, aggregate_date arr, ?_⟩
  · rw [aggregate_bol]; exact firstNonEmptyStr_of_wf _ _ hbol
  · rw [aggregate_container]; exact firstNonEmptyStr_of_wf _ _ hcont
  · rw [aggregate_name]; exact firstNonEmptyStr_of_wf _ _ hname
  · rw [aggregate_address]; exact firstNonEmptyStr_of_wf _ _ haddr
  · rw [aggregate_bol]
    simp [List.filterMap_cons, fsA, fsB, firstNonEmptyStr, List.filter_cons]

/-- Witness for the amended claim C1 at the concrete two-FieldSet input of the
claim: the well-formedness hypotheses hold there and the reconciled
bill-of-lading number is the first non-null value. -/
theorem firstWriter_wins_for_text_fields_witness :
    (∀ d ∈ [some fsA, some fsB].filterMap id, ∀ s,
        d.bill_of_lading_number = some s → s ≠ "") ∧
      (aggregateExtractedData [some fsA, some fsB]).billOfLadingNumber =
        (([some fsA, some fsB].filterMap id).findSome?
          (fun d => d.bill_of_lading_number)).getD "" := by
  have hbol : ∀ d ∈ [some fsA, some fsB].filterMap id, ∀ s,
      d.bill_of_lading_number = some s → s ≠ "" := by
    intro d hd s hs
    have hd2 : d = fsA ∨ d = fsB := by simpa using hd
    rcases hd2 with h | h
    · subst h; simp [fsA] at hs; subst hs; decide
    · subst h; simp [fsB] at hs; subst hs; decide
  have hnone : ∀ (f : ExtractedData → Option String),
      f fsA = none → f fsB = none →
      ∀ d ∈ [some fsA, some fsB].filterMap id, ∀ s, f d = some s → s ≠ "" := by
    intro f hA hB d hd s hs
    have hd2 : d = fsA ∨ d = fsB := by simpa using hd
    rcases hd2 with h | h
    · subst h; rw [hA] at hs; exact absurd hs (by simp)
    · subst h; rw [hB] at hs; exact absurd hs (by simp)
  exact ⟨hbol,
    (firstWriter_wins_for_text_fields [some fsA, some fsB] hbol
      (hnone _ rfl rfl) (hnone _ rfl rfl) (hnone _ rfl rfl)).1⟩

/-- FieldSet carrying only an ISO-timestamp-shaped date, used to refute the
verbatim form of the duplicate-value claim. -/
def fsStamp : ExtractedData := { date := some "2024-06-01T10:00:00Z" }

/-- Claim C8 counterexample: two FieldSets carrying the identical non-null
date `"2024-06-01T10:00:00Z"` reconcile to `"2024-06-01"`, not to the shared
value — so for the date field the reconciled result is not the shared value. -/
theorem duplicate_date_value_counterexample :
    (aggregateExtractedData [some fsStamp, some fsStamp]).date = "2024-06-01" ∧
      fsStamp.date = some "2024-06-01T10:00:00Z" ∧
      ("2024-06-01" : String) ≠ "2024-06-01T10:00:00Z" := by
  refine ⟨?_, rfl, by decide⟩
  rw [aggregate_date]
  simp [List.filterMap_cons, fsStamp, splitTHead, firstNonEmptyStr, List.filter_cons]

/-- Claim C8 (amended): for each of the four identifier fields, two FieldSets
carrying the same non-null value reconcile to that value in either order;
for the date field they reconcile, in either order, to the date component of
the shared value (its prefix before the first 'T') rather than to the value
itself. -/
theorem duplicate_text_value_order_invariant (a b : ExtractedData) (v : String) :
    (a.bill_of_lading_number = some v → b.bill_of_lading_number = some v →
        (aggregateExtractedData [some a, some b]).billOfLadingNumber = v ∧
          (aggregateExtractedData [some b, some a]).billOfLadingNumber = v) ∧
      (a.container_number = some v → b.container_number = some v →
        (aggregateExtractedData [some a, some b]).containerNumber = v ∧
          (aggregateExtractedData [some b, some a]).containerNumber = v) ∧
      (a.consignee_name = some v → b.consignee_name = some v →
        (aggregateExtractedData [some a, some b]).consigneeName = v ∧
          (aggregateExtractedData [some b, some a]).consigneeName = v) ∧
      (a.consignee = some v → b.consignee = some v →
        (aggregateExtractedData [some a, some b]).consigneeAddress = v ∧
          (aggregateExtractedData [some b, some a]).consigneeAddress = v) ∧
      (a.date = some v → b.date = some v →
        (aggregateExtractedData [some a, some b]).date = splitTHead v ∧
          (aggregateExtractedData [some b, some a]).date = splitTHead v) := by
  refine ⟨fun h1 h2 => ?_, fun h1 h2 => ?_, fun h1 h2 => ?_, fun h1 h2 => ?_,
    fun h1 h2 => ?_⟩
  · rw [aggregate_bol, aggregate_bol]
    simp [List.filterMap_cons, h1, h2, firstNonEmptyStr_pair]
  · rw [aggregate_container, aggregate_container]
    simp [List.filterMap_cons, h1, h2, firstNonEmptyStr_pair]
  · rw [aggregate_name, aggregate_name]
    simp [List.filterMap_cons, h1, h2, firstNonEmptyStr_pair]
  · rw [aggregate_address, aggregate_address]
    simp [List.filterMap_cons, h1, h2, firstNonEmptyStr_pair]
  · rw [aggregate_date, aggregate_date]
    simp [List.filterMap_cons, h1, h2, firstNonEmptyStr_pair]

/-- Witness for the amended claim C8: two FieldSets both carrying container
number "CNTR1" reconcile to "CNTR1" in both orders. -/
theorem duplicate_text_value_order_invariant_witness :
    ({ container_number := some "CNTR1" } : ExtractedData).container_number
        = some "CNTR1" ∧
      (aggregateExtractedData
          [some { container_number := some "CNTR1" },
           some { container_number := some "CNTR1" }]).containerNumber = "CNTR1" := by
  exact ⟨rfl,
    ((duplicate_text_value_order_invariant
      { container_number := some "CNTR1" } { container_number := some "CNTR1" }
      "CNTR1").2.1 rfl rfl).1⟩

/-- Claim C10 counterexample: the FieldSet `{date: "T08:30"}` reports a
non-empty date value, yet the reconciled date is the empty string, because
the stored value is the (empty) prefix of the value before the first 'T'. -/
theorem nonempty_report_empty_result_counterexample :
    (aggregateExtractedData [some fsT]).date = "" ∧
      fsT.date = some "T08:30" ∧ ("T08:30" : String) ≠ "" := by
  refine ⟨?_, rfl, by decide⟩
  rw [aggregate_date]
  simp [List.filterMap_cons, fsT, splitTHead, firstNonEmptyStr, List.filter_cons]

/-- Claim C10 (amended): an empty-string value is treated exactly like null
for every text field — it is never selected, it is skipped so that a later
FieldSet still supplies the field — and for each of the four identifier
fields a reconciled value is non-empty whenever some FieldSet reports a
non-empty value; for the date field the reconciled value is non-empty
whenever some FieldSet reports a date whose component before the first 'T'
is non-empty (a reported value consisting only of a 'T'-led timestamp tail
yields an empty stored date). -/
theorem empty_string_treated_as_null (arr : List (Option ExtractedData))
    (a b : ExtractedData) (s : String) :
    (a.bill_of_lading_number = some "" →
        (aggregateExtractedData (some a :: arr)).billOfLadingNumber =
          (aggregateExtractedData arr).billOfLadingNumber) ∧
      (a.container_number = some "" →
        (aggregateExtractedData (some a :: arr)).containerNumber =
          (aggregateExtractedData arr).containerNumber) ∧
      (a.consignee_name = some "" →
        (aggregateExtractedData (some a :: arr)).consigneeName =
          (aggregateExtractedData arr).consigneeName) ∧
      (a.consignee = some "" →
        (aggregateExtractedData (some a :: arr)).consigneeAddress =
          (aggregateExtractedData arr).consigneeAddress) ∧
      (a.date = some "" →
        (aggregateExtractedData (some a :: arr)).date =
          (aggregateExtractedData arr).date) ∧
      (a.bill_of_lading_number = some "" → b.bill_of_lading_number = some s → s ≠ "" →
        (aggregateExtractedData [some a, some b]).billOfLadingNumber = s) ∧
      ((∃ d ∈ arr.filterMap id, ∃ t, d.bill_of_lading_number = some t ∧ t ≠ "") →
        (aggregateExtractedData arr).billOfLadingNumber ≠ "") ∧
      ((∃ d ∈ arr.filterMap id, ∃ t, d.container_number = some t ∧ t ≠ "") →
        (aggregateExtractedData arr).containerNumber ≠ "") ∧
      ((∃ d ∈ arr.filterMap id, ∃ t, d.consignee_name = some t ∧ t ≠ "") →
        (aggregateExtractedData arr).consigneeName ≠ "") ∧
      ((∃ d ∈ arr.filterMap id, ∃ t, d.consignee = some t ∧ t ≠ "") →
        (aggregateExtractedData arr).consigneeAddress ≠ "") ∧
      ((∃ d ∈ arr.filterMap id, ∃ t, d.date = some t ∧ splitTHead t ≠ "") →
        (aggregateExtractedData arr).date ≠ "") := by
  refine ⟨textField_skip_empty arr a _ _ aggregate_bol,
    textField_skip_empty arr a _ _ aggregate_container,
    textField_skip_empty arr a _ _ aggregate_name,
    textField_skip_empty arr a _ _ aggregate_address,
    ?_,
    fun ha hb hs => textField_later_supplies a b s _ _ aggregate_bol ha hb hs,
    textField_nonempty arr _ _ aggregate_bol,
    textField_nonempty arr _ _ aggregate_container,
    textField_nonempty arr _ _ aggregate_name,
    textField_nonempty arr _ _ aggregate_address,
    ?_⟩
  · intro ha
    rw [aggregate_date, aggregate_date]
    have hsplit : splitTHead "" = "" := rfl
    simp [List.filterMap_cons, ha, hsplit, firstNonEmptyStr_cons_empty]
  · rintro ⟨d, hd, t, hdt, ht⟩
    rw [aggregate_date, firstNonEmptyStr_ne_iff]
    exact ⟨splitTHead t,
      List.mem_map.mpr ⟨t, List.mem_filterMap.mpr ⟨d, hd, hdt⟩, rfl⟩, ht⟩

/-- Witness for the amended claim C10: a FieldSet whose bill-of-lading number
is the empty string is skipped and a later FieldSet supplies the field. -/
theorem empty_string_treated_as_null_witness :
    ({ bill_of_lading_number := some "" } : ExtractedData).bill_of_lading_number
        = some "" ∧
      (aggregateExtractedData
          [some { bill_of_lading_number := some "" },
           some { bill_of_lading_number := some "X" }]).billOfLadingNumber = "X" := by
  exact ⟨rfl,
    (empty_string_treated_as_null []
      { bill_of_lading_number := some "" }
      { bill_of_lading_number := some "X" } "X").2.2.2.2.2.1 rfl rfl (by decide)⟩

/-- Embedding of `transformApiDataToFormData` (dataTransform.ts lines 3–14):
`x || ''` on the text fields, `date.split('T')[0]` on a truthy date, and the
numeric fields rendered (kept as their value, `none` for `''`). -/
def transformApiDataToFormData (apiData : ExtractedData) : AggregatedForm :=
  { billOfLadingNumber := apiData.bill_of_lading_number.getD ""
    containerNumber := apiData.container_number.getD ""
    consigneeName := apiData.consignee_name.getD ""
    consigneeAddress := apiData.consignee.getD ""
    date :=
      match apiData.date with
      | some d => if d = "" then "" else splitTHead d
      | none => ""
    lineItemsCount := apiData.line_items_count
    averageGrossWeight := apiData.average_gross_weight
    averagePrice := apiData.average_price }

lemma takeWhile_all {p : Char → Bool} (l : List Char) (h : ∀ c ∈ l, p c = true) :
    l.takeWhile p = l := by
  induction l with
  | nil => rfl
  | cons c l ih =>
    rw [List.takeWhile_cons, if_pos (h c (List.mem_cons_self c l))]
    rw [ih (fun c hc => h c (List.mem_cons_of_mem _ hc))]

lemma takeWhile_append_all {p : Char → Bool} (l₁ l₂ : List Char) (a : Char)
    (h : ∀ c ∈ l₁, p c = true) (ha : p a = false) :
    (l₁ ++ a :: l₂).takeWhile p = l₁ := by
  induction l₁ with
  | nil => simp [List.takeWhile_cons, ha]
  | cons c l ih =>
    rw [List.cons_append, List.takeWhile_cons, if_pos (h c (List.mem_cons_self c l))]
    rw [ih (fun c hc => h c (List.mem_cons_of_mem _ hc))]

lemma splitTHead_eq_self (s : String) (h : ∀ c ∈ s.data, c ≠ 'T') :
    splitTHead s = s := by
  rw [splitTHead, takeWhile_all s.data (fun c hc => by simpa using h c hc)]

lemma splitTHead_append (x y : String) (h : ∀ c ∈ x.data, c ≠ 'T') :
    splitTHead (x ++ "T" ++ y) = x := by
  have hdata : (x ++ "T" ++ y).data = x.data ++ 'T' :: y.data := by
    simp [String.data_append]
  rw [splitTHead, hdata,
    takeWhile_append_all x.data y.data 'T' (fun c hc => by simpa using h c hc) (by decide)]

/-- Claim C7: an extracted date shaped like an ISO timestamp (a 'T'-free date
part, a 'T', then a time part) is stored truncated at the first 'T', and a
date value with no 'T' is stored unchanged; this holds for the form
transform of a single API record and for the reconciliation of a FieldSet
sequence, where the stored date is the 'T'-prefix of the reported value. -/
theorem date_truncated_at_first_T (a : ExtractedData) (x y d : String) :
    (a.date = some (x ++ "T" ++ y) → (∀ c ∈ x.data, c ≠ 'T') →
        (transformApiDataToFormData a).date = x) ∧
      (a.date = some d → (∀ c ∈ d.data, c ≠ 'T') →
        (transformApiDataToFormData a).date = d) ∧
      (a.date = some d →
        (aggregateExtractedData [some a]).date = splitTHead d) ∧
      (transformApiDataToFormData { date := some "2024-01-05T08:30:00Z" }).date
        = "2024-01-05" := by
  refine ⟨fun ha hx => ?_, fun ha hd => ?_, fun ha => ?_, ?_⟩
  · have hne : x ++ "T" ++ y ≠ "" := by
      intro hc
      have : (x ++ "T" ++ y).data = [] := by rw [hc]
      simp [String.data_append] at this
    rw [transformApiDataToFormData]
    simp only [ha]
    rw [if_neg hne, splitTHead_append x y hx]
  · by_cases hde : d = ""
    · subst hde
      rw [transformApiDataToFormData]
      simp [ha]
    · rw [transformApiDataToFormData]
      simp only [ha]
      rw [if_neg hde, splitTHead_eq_self d hd]
  · rw [aggregate_date]
    by_cases hde : d = ""
    · subst hde
      simp [List.filterMap_cons, ha, firstNonEmptyStr, List.filter_cons, splitTHead]
    · by_cases ht : splitTHead d = "" <;>
        simp [List.filterMap_cons, ha, firstNonEmptyStr, List.filter_cons, ht]
  · rw [transformApiDataToFormData]
    simp only []
    rw [if_neg (by decide)]
    decide

/-- Witness for claim C7: a concrete ISO timestamp is truncated to its date
component by the form transform. -/
theorem date_truncated_at_first_T_witness :
    ({ date := some ("2024-03-04" ++ "T" ++ "12:00:00") } : ExtractedData).date
        = some ("2024-03-04" ++ "T" ++ "12:00:00") ∧
      (transformApiDataToFormData
        { date := some ("2024-03-04" ++ "T" ++ "12:00:00") }).date = "2024-03-04" := by
  exact ⟨rfl,
    (date_truncated_at_first_T
        { date := some ("2024-03-04" ++ "T" ++ "12:00:00") }
        "2024-03-04" "12:00:00" "").1 rfl (by decide)⟩

/-- A JavaScript number as produced by `parseInt`/`parseFloat`: either NaN or
a (rational) numeric value. -/
inductive JsNumber where
  | nan : JsNumber
  | num : ℚ → JsNumber
  deriving DecidableEq, Repr

/-- Decimal value of a list of digit characters. -/
def digitsVal (cs : List Char) : ℕ :=
  cs.foldl (fun a c => a * 10 + (c.toNat - 48)) 0

/-- Sign handling shared by `parseInt` and `parseFloat`: a leading `'-'` or
`'+'` is consumed, yielding the sign factor and the remaining characters. -/
def parseSign (cs : List Char) : ℚ × List Char :=
  if cs.head? = some '-' then (-1, cs.tail)
  else if cs.head? = some '+' then (1, cs.tail)
  else (1, cs)

/-- Embedding of `parseInt(s)` on plain decimal forms: skip leading
whitespace, read an optional sign, then the leading run of decimal digits;
NaN when no digit follows (hexadecimal forms do not occur in this code path
and are not modelled). -/
def jsParseInt (s : String) : JsNumber :=
  let sc := parseSign (s.data.dropWhile Char.isWhitespace)
  let ds := sc.2.takeWhile Char.isDigit
  if ds.isEmpty then JsNumber.nan else JsNumber.num (sc.1 * (digitsVal ds : ℚ))

/-- Embedding of `parseFloat(s)` on plain decimal forms: optional sign,
integer digits, then an optional fraction after a decimal point; NaN when
neither side of the point has a digit (exponent forms do not occur in this
code path and are not modelled). -/
def jsParseFloat (s : String) : JsNumber :=
  let sc := parseSign (s.data.dropWhile Char.isWhitespace)
  let intDs := sc.2.takeWhile Char.isDigit
  let rest := sc.2.dropWhile Char.isDigit
  let fracDs := if rest.head? = some '.' then rest.tail.takeWhile Char.isDigit else []
  if intDs.isEmpty && fracDs.isEmpty then JsNumber.nan
  else
    JsNumber.num
      (sc.1 * ((digitsVal intDs : ℚ) + (digitsVal fracDs : ℚ) / (10 : ℚ) ^ fracDs.length))

/-- The `DocumentFormData` interface exactly as in TypeScript: all eight
fields are strings (the empty string plays the role of "absent"). -/
structure DocumentFormData where
  billOfLadingNumber : String := ""
  containerNumber : String := ""
  consigneeName : String := ""
  consigneeAddress : String := ""
  date : String := ""
  lineItemsCount : String := ""
  averageGrossWeight : String := ""
  averagePrice : String := ""
  deriving DecidableEq, Repr

/-- The runtime shape of the object returned by `transformFormDataToApiData`:
its TypeScript type is `ExtractedData`, but `parseInt`/`parseFloat` can put
NaN into the numeric fields, so they are modelled as `Option JsNumber`. -/
structure ExtractedDataFromForm where
  bill_of_lading_number : Option String := none
  container_number : Option String := none
  consignee_name : Option String := none
  consignee : Option String := none
  date : Option String := none
  line_items_count : Option JsNumber := none
  average_gross_weight : Option JsNumber := none
  average_price : Option JsNumber := none
  deriving DecidableEq, Repr

/-- Embedding of `transformFormDataToApiData` (dataTransform.ts lines
16–27): `x || null` on the strings, `x ? parseInt(x) : null` on the count
and `x ? parseFloat(x) : null` on the averages. -/
def transformFormDataToApiData (formData : DocumentFormData) : ExtractedDataFromForm :=
  { bill_of_lading_number :=
      if formData.billOfLadingNumber = "" then none else some formData.billOfLadingNumber
    container_number :=
      if formData.containerNumber = "" then none else some formData.containerNumber
    consignee_name :=
      if formData.consigneeName = "" then none else some formData.consigneeName
    consignee :=
      if formData.consigneeAddress = "" then none else some formData.consigneeAddress
    date := if formData.date = "" then none else some formData.date
    line_items_count :=
      if formData.lineItemsCount = "" then none
      else some (jsParseInt formData.lineItemsCount)
    average_gross_weight :=
      if formData.averageGrossWeight = "" then none
      else some (jsParseFloat formData.averageGrossWeight)
    average_price :=
      if formData.averagePrice = "" then none
      else some (jsParseFloat formData.averagePrice) }

lemma digit_not_whitespace (c : Char) (h : c.isDigit = true) : c.isWhitespace = false := by
  by_contra hw
  rw [Bool.not_eq_false] at hw
  simp only [Char.isWhitespace, Bool.or_eq_true, decide_eq_true_eq] at hw
  rcases hw with ((h1 | h1) | h1) | h1 <;> subst h1 <;> exact absurd h (by decide)

lemma eq_empty_of_data_nil (s : String) (h : s.data = []) : s = "" := by
  cases s
  simp at h
  subst h
  rfl

lemma digit_ne_minus (c : Char) (h : c.isDigit = true) : c ≠ '-' := by
  intro hc; rw [hc] at h; exact absurd h (by decide)

lemma digit_ne_plus (c : Char) (h : c.isDigit = true) : c ≠ '+' := by
  intro hc; rw [hc] at h; exact absurd h (by decide)

lemma parseSign_digit (c : Char) (cs : List Char) (hc : c.isDigit = true) :
    parseSign (c :: cs) = (1, c :: cs) := by
  rw [parseSign, List.head?_cons]
  rw [if_neg (fun hk => digit_ne_minus c hc (Option.some_inj.mp hk))]
  rw [if_neg (fun hk => digit_ne_plus c hc (Option.some_inj.mp hk))]

lemma dropWhile_all {p : Char → Bool} (l : List Char) (h : ∀ c ∈ l, p c = true) :
    l.dropWhile p = [] := by
  induction l with
  | nil => rfl
  | cons c l ih =>
    rw [List.dropWhile_cons, if_pos (h c (List.mem_cons_self c l))]
    exact ih (fun c hc => h c (List.mem_cons_of_mem _ hc))

lemma jsParseInt_digits (s : String) (hne : s ≠ "")
    (h : ∀ c ∈ s.data, c.isDigit = true) :
    jsParseInt s = JsNumber.num (digitsVal s.data) := by
  rcases hcs : s.data with _ | ⟨c, cs⟩
  · exact absurd (eq_empty_of_data_nil s hcs) hne
  · have hc : c.isDigit = true := h c (by rw [hcs]; exact List.mem_cons_self c cs)
    have hall : ∀ x ∈ c :: cs, Char.isDigit x = true := by rw [← hcs]; exact h
    have hdw : s.data.dropWhile Char.isWhitespace = c :: cs := by
      rw [hcs, List.dropWhile_cons,
        if_neg (by rw [digit_not_whitespace c hc]; exact Bool.false_ne_true)]
    simp only [jsParseInt, hdw, parseSign_digit c cs hc]
    rw [takeWhile_all (c :: cs) hall]
    rw [if_neg (by simp)]
    rw [one_mul]

lemma jsParseFloat_digits (s : String) (hne : s ≠ "")
    (h : ∀ c ∈ s.data, c.isDigit = true) :
    jsParseFloat s = JsNumber.num (digitsVal s.data) := by
  rcases hcs : s.data with _ | ⟨c, cs⟩
  · exact absurd (eq_empty_of_data_nil s hcs) hne
  · have hc : c.isDigit = true := h c (by rw [hcs]; exact List.mem_cons_self c cs)
    have hall : ∀ x ∈ c :: cs, Char.isDigit x = true := by rw [← hcs]; exact h
    have hdw : s.data.dropWhile Char.isWhitespace = c :: cs := by
      rw [hcs, List.dropWhile_cons,
        if_neg (by rw [digit_not_whitespace c hc]; exact Bool.false_ne_true)]
    simp only [jsParseFloat, hdw, parseSign_digit c cs hc]
    rw [takeWhile_all (c :: cs) hall, dropWhile_all (c :: cs) hall]
    simp only [List.head?_nil, List.tail_nil, if_neg (by simp : ¬(none : Option Char) = some '.')]
    rw [if_neg (by simp)]
    have hz : (digitsVal ([] : List Char) : ℚ) = 0 := by rfl
    simp [hz]

/-- Claim C6 counterexample: the present but unparseable form value `"abc"`
for the line-item count is converted to NaN, not to an explicit null — the
output field holds `some nan`, not `none`. -/
theorem unparseable_becomes_nan_counterexample :
    (transformFormDataToApiData { lineItemsCount := "abc" }).line_items_count
        = some JsNumber.nan ∧
      (transformFormDataToApiData { lineItemsCount := "abc" }).line_items_count
        ≠ none := by
  have h : (transformFormDataToApiData { lineItemsCount := "abc" }).line_items_count
      = some JsNumber.nan := by decide
  exact ⟨h, by rw [h]; simp⟩

/-- Claim C6 (amended): the conversion never omits a field — for the three
numeric fields, an empty form value becomes an explicit null, a non-empty
all-digit value is coerced to its decimal numeric value, and a present but
unparseable value becomes NaN (a present non-null value), not null. -/
theorem form_numeric_fields_coerced (fd : DocumentFormData) (s : String) :
    (fd.lineItemsCount = "" →
        (transformFormDataToApiData fd).line_items_count = none) ∧
      (fd.averageGrossWeight = "" →
        (transformFormDataToApiData fd).average_gross_weight = none) ∧
      (fd.averagePrice = "" →
        (transformFormDataToApiData fd).average_price = none) ∧
      (fd.lineItemsCount = s → s ≠ "" → (∀ c ∈ s.data, c.isDigit = true) →
        (transformFormDataToApiData fd).line_items_count =
          some (JsNumber.num (digitsVal s.data))) ∧
      (fd.averageGrossWeight = s → s ≠ "" → (∀ c ∈ s.data, c.isDigit = true) →
        (transformFormDataToApiData fd).average_gross_weight =
          some (JsNumber.num (digitsVal s.data))) ∧
      (fd.averagePrice = s → s ≠ "" → (∀ c ∈ s.data, c.isDigit = true) →
        (transformFormDataToApiData fd).average_price =
          some (JsNumber.num (digitsVal s.data))) ∧
      (fd.lineItemsCount = s → s ≠ "" → jsParseInt s = JsNumber.nan →
        (transformFormDataToApiData fd).line_items_count = some JsNumber.nan) ∧
      (fd.averagePrice = s → s ≠ "" → jsParseFloat s = JsNumber.nan →
        (transformFormDataToApiData fd).average_price = some JsNumber.nan) := by
  refine ⟨fun h => ?_, fun h => ?_, fun h => ?_,
    fun h hne hd => ?_, fun h hne hd => ?_, fun h hne hd => ?_,
    fun h hne hnan => ?_, fun h hne hnan => ?_⟩ <;>
    simp only [transformFormDataToApiData, h]
  · simp
  · simp
  · simp
  · rw [if_neg hne, jsParseInt_digits s hne hd]
  · rw [if_neg hne, jsParseFloat_digits s hne hd]
  · rw [if_neg hne, jsParseFloat_digits s hne hd]
  · rw [if_neg hne, hnan]
  · rw [if_neg hne, hnan]

/-- Witness for the amended claim C6: the all-digit form value `"18"` is
coerced to the number 18 (the decimal value of its digits). -/
theorem form_numeric_fields_coerced_witness :
    ("18" : String) ≠ "" ∧
      (transformFormDataToApiData { lineItemsCount := "18" }).line_items_count =
        some (JsNumber.num (digitsVal "18".data)) := by
  exact ⟨by decide,
    (form_numeric_fields_coerced { lineItemsCount := "18" } "18").2.2.2.1 rfl
      (by decide) (by decide)⟩

/-- A browser `File` as the intake code reads it: name, declared MIME type,
byte size and last-modified timestamp (milliseconds since the epoch). -/
structure File where
  name : String
  type : String
  size : ℕ
  lastModified : ℤ
  deriving DecidableEq, Repr

/-- Embedding of `generateFileFingerprint` (fileAnalysis.ts lines 4–7):
the template string `name-size-lastModified`. -/
def generateFileFingerprint (file : File) : String :=
  file.name ++ "-" ++ toString file.size ++ "-" ++ toString file.lastModified

/-- The `FileStats` interface: metadata plus the deduplication fingerprint
and the rough page/sheet/row estimates. -/
structure FileStats where
  size : ℕ
  lastModified : ℤ
  type : String
  fingerprint : String
  pages : Option ℤ := none
  sheets : Option ℕ := none
  rows : Option ℤ := none
  deriving DecidableEq, Repr

/-- Embedding of `s.toLowerCase()` on the character list. -/
def jsToLower (s : String) : String := String.mk (s.data.map Char.toLower)

/-- Embedding of `s.endsWith(suf)`: the reversed suffix is a prefix of the
reversed string. -/
def strEndsWith (s suf : String) : Bool := suf.data.reverse.isPrefixOf s.data.reverse

/-- Embedding of `s.includes(sub)`: some tail of the character list starts
with the substring. -/
def strIncludes (s sub : String) : Bool :=
  (List.range (s.data.length + 1)).any (fun i => sub.data.isPrefixOf (s.data.drop i))

/-- Embedding of `analyzeFile` (fileAnalysis.ts): base stats with the
fingerprint, a page estimate `max 1 (round (size / 75000))` for PDFs, and
sheet/row estimates for spreadsheet-like files.  (`Math.round x` is
`⌊x + 1/2⌋`, Mathlib's `round`.) -/
def analyzeFile (file : File) : FileStats :=
  let base : FileStats :=
    { size := file.size, lastModified := file.lastModified, type := file.type
      fingerprint := generateFileFingerprint file }
  let withPages :=
    if file.type = "application/pdf" then
      { base with pages := some (max 1 (round ((file.size : ℚ) / 75000))) }
    else base
  if strIncludes file.type "spreadsheet" || strIncludes file.type "excel" ||
      strEndsWith (jsToLower file.name) ".xlsx" || strEndsWith (jsToLower file.name) ".xls" then
    { withPages with sheets := some 1, rows := some (max 10 (round ((file.size : ℚ) / 1000))) }
  else withPages

/-- The `DocumentData` record held per accepted file.  The random `id` and
the object URL are browser-environment effects with no bearing on the
intake logic and are not modelled. -/
structure DocumentData where
  file : File
  stats : FileStats
  rawApiData : Option ExtractedData := none
  isProcessed : Bool := false
  deriving DecidableEq, Repr

/-- Embedding of the file-type test of `addDocuments` (useDocuments.ts
lines 30–37): declared MIME type or lower-cased extension must resolve to
PDF or Excel. -/
def isValidFileType (file : File) : Bool :=
  file.type == "application/pdf" ||
  file.type == "application/vnd.openxmlformats-officedocument.spreadsheetml.sheet" ||
  file.type == "application/vnd.ms-excel" ||
  strEndsWith (jsToLower file.name) ".pdf" ||
  strEndsWith (jsToLower file.name) ".xlsx" ||
  strEndsWith (jsToLower file.name) ".xls"

/-- Embedding of `isDuplicateFile` (useDocuments.ts lines 15–18). -/
def isDuplicateFile (file : File) (docs : List DocumentData) : Bool :=
  docs.any (fun doc => doc.stats.fingerprint == generateFileFingerprint file)

/-- The outcome of one intake batch: accepted documents in input order and
the two non-fatal skip counters reported by toasts. -/
structure IntakeResult where
  validFiles : List DocumentData := []
  invalidCount : ℕ := 0
  duplicateCount : ℕ := 0
  deriving DecidableEq, Repr

/-- One loop iteration of `addDocuments` (useDocuments.ts lines 25–55):
invalid type → invalid counter; duplicate of the session documents or of
the batch so far → duplicate counter; otherwise accept the file. -/
def intakeStep (existing : List DocumentData) (acc : IntakeResult) (file : File) :
    IntakeResult :=
  if isValidFileType file then
    if isDuplicateFile file existing || isDuplicateFile file acc.validFiles then
      { acc with duplicateCount := acc.duplicateCount + 1 }
    else
      { acc with validFiles := acc.validFiles ++ [{ file := file, stats := analyzeFile file }] }
  else { acc with invalidCount := acc.invalidCount + 1 }

/-- Embedding of `addDocuments` (useDocuments.ts lines 20–74): fold the
intake step over the uploaded files, starting from an empty batch;
`existing` is `state.documents`. -/
def addDocuments (existing : List DocumentData) (files : List File) : IntakeResult :=
  files.foldl (intakeStep existing) {}

lemma analyzeFile_fingerprint (f : File) :
    (analyzeFile f).fingerprint = generateFileFingerprint f := by
  rw [analyzeFile]
  split <;> split <;> rfl

/-- The two skip counters are additive in the accumulator: the fold only
ever increments them, and the duplicate test depends only on the
accumulated `validFiles`. -/
lemma foldl_intakeStep_counts (existing : List DocumentData) (fs : List File)
    (acc : IntakeResult) :
    fs.foldl (intakeStep existing) acc =
      { validFiles :=
          (fs.foldl (intakeStep existing)
            { validFiles := acc.validFiles }).validFiles
        invalidCount := acc.invalidCount +
          (fs.foldl (intakeStep existing)
            { validFiles := acc.validFiles }).invalidCount
        duplicateCount := acc.duplicateCount +
          (fs.foldl (intakeStep existing)
            { validFiles := acc.validFiles }).duplicateCount } := by
  induction fs generalizing acc with
  | nil => simp
  | cons f fs ih =>
    simp only [List.foldl_cons]
    by_cases hv : isValidFileType f = true
    · by_cases hd : (isDuplicateFile f existing || isDuplicateFile f acc.validFiles) = true
      · have hstep : intakeStep existing acc f =
            { acc with duplicateCount := acc.duplicateCount + 1 } := by
          rw [intakeStep, if_pos hv, if_pos hd]
        have hstep0 : intakeStep existing { validFiles := acc.validFiles } f =
            { validFiles := acc.validFiles, duplicateCount := 1 } := by
          rw [intakeStep, if_pos hv, if_pos hd]
        rw [hstep, hstep0, ih, ih { validFiles := acc.validFiles, duplicateCount := 1 }]
        all_goals (simp only [IntakeResult.mk.injEq, true_and]; omega)
      · have hstep : intakeStep existing acc f =
            { acc with validFiles :=
                acc.validFiles ++ [{ file := f, stats := analyzeFile f }] } := by
          rw [intakeStep, if_pos hv, if_neg hd]
        have hstep0 : intakeStep existing { validFiles := acc.validFiles } f =
            { validFiles := acc.validFiles ++ [{ file := f, stats := analyzeFile f }] } := by
          rw [intakeStep, if_pos hv, if_neg hd]
        rw [hstep, hstep0, ih,
          ih { validFiles := acc.validFiles ++ [{ file := f, stats := analyzeFile f }] }]
    · have hstep : intakeStep existing acc f =
          { acc with invalidCount := acc.invalidCount + 1 } := by
        rw [intakeStep, if_neg hv]
      have hstep0 : intakeStep existing { validFiles := acc.validFiles } f =
          { validFiles := acc.validFiles, invalidCount := 1 } := by
        rw [intakeStep, if_neg hv]
      rw [hstep, hstep0, ih, ih { validFiles := acc.validFiles, invalidCount := 1 }]
      all_goals (simp only [IntakeResult.mk.injEq, true_and]; omega)

lemma foldl_intakeStep_valid (ex : List DocumentData) (gs : List File)
    (v : List DocumentData) (i d : ℕ) :
    (gs.foldl (intakeStep ex) ⟨v, i, d⟩).validFiles =
      (gs.foldl (intakeStep ex) ⟨v, 0, 0⟩).validFiles := by
  conv_lhs => rw [foldl_intakeStep_counts]

lemma foldl_intakeStep_invalid (ex : List DocumentData) (gs : List File)
    (v : List DocumentData) (i d : ℕ) :
    (gs.foldl (intakeStep ex) ⟨v, i, d⟩).invalidCount =
      i + (gs.foldl (intakeStep ex) ⟨v, 0, 0⟩).invalidCount := by
  conv_lhs => rw [foldl_intakeStep_counts]

lemma foldl_intakeStep_dup (ex : List DocumentData) (gs : List File)
    (v : List DocumentData) (i d : ℕ) :
    (gs.foldl (intakeStep ex) ⟨v, i, d⟩).duplicateCount =
      d + (gs.foldl (intakeStep ex) ⟨v, 0, 0⟩).duplicateCount := by
  conv_lhs => rw [foldl_intakeStep_counts]

/-- Claim C4: files with identical name, size and last-modified timestamp
have equal fingerprints; a valid file uploaded twice in one batch yields
exactly one accepted document, one duplicate-report entry and no invalid
entry; and the duplicate skip is non-fatal — the rest of the batch is
processed exactly as if the second copy had been the only one. -/
theorem duplicate_upload_detected (f g : File) (gs : List File)
    (hval : isValidFileType f = true) :
    (f.name = g.name → f.size = g.size → f.lastModified = g.lastModified →
        generateFileFingerprint f = generateFileFingerprint g) ∧
      (addDocuments [] [f, f]).validFiles.length = 1 ∧
      (addDocuments [] [f, f]).duplicateCount = 1 ∧
      (addDocuments [] [f, f]).invalidCount = 0 ∧
      (addDocuments [] (f :: f :: gs)).validFiles =
        (addDocuments [] (f :: gs)).validFiles ∧
      (addDocuments [] (f :: f :: gs)).duplicateCount =
        (addDocuments [] (f :: gs)).duplicateCount + 1 ∧
      (addDocuments [] (f :: f :: gs)).invalidCount =
        (addDocuments [] (f :: gs)).invalidCount := by
  have hs1 : intakeStep [] ({} : IntakeResult) f =
      { validFiles := [{ file := f, stats := analyzeFile f }] } := by
    rw [intakeStep, if_pos hval, if_neg (by simp [isDuplicateFile])]
    simp
  have hs2 : intakeStep [] { validFiles := [{ file := f, stats := analyzeFile f }] } f =
      { validFiles := [{ file := f, stats := analyzeFile f }], duplicateCount := 1 } := by
    rw [intakeStep, if_pos hval,
      if_pos (by simp [isDuplicateFile, analyzeFile_fingerprint])]
  have hff : addDocuments [] (f :: f :: gs) =
      gs.foldl (intakeStep [])
        { validFiles := [{ file := f, stats := analyzeFile f }], duplicateCount := 1 } := by
    rw [addDocuments, List.foldl_cons, List.foldl_cons, hs1, hs2]
  have hfo : addDocuments [] (f :: gs) =
      gs.foldl (intakeStep [])
        { validFiles := [{ file := f, stats := analyzeFile f }] } := by
    rw [addDocuments, List.foldl_cons, hs1]
  refine ⟨fun h1 h2 h3 => ?_, ?_, ?_, ?_, ?_, ?_, ?_⟩
  · rw [generateFileFingerprint, generateFileFingerprint, h1, h2, h3]
  · rw [show addDocuments [] [f, f] =
      intakeStep [] (intakeStep [] {} f) f from rfl, hs1, hs2]
    rfl
  · rw [show addDocuments [] [f, f] =
      intakeStep [] (intakeStep [] {} f) f from rfl, hs1, hs2]
  · rw [show addDocuments [] [f, f] =
      intakeStep [] (intakeStep [] {} f) f from rfl, hs1, hs2]
  · rw [hff, hfo]
    exact foldl_intakeStep_valid [] gs [{ file := f, stats := analyzeFile f }] 0 1
  · rw [hff, hfo,
      foldl_intakeStep_dup [] gs [{ file := f, stats := analyzeFile f }] 0 1,
      foldl_intakeStep_dup [] gs [{ file := f, stats := analyzeFile f }] 0 0]
    omega
  · rw [hff, hfo,
      foldl_intakeStep_invalid [] gs [{ file := f, stats := analyzeFile f }] 0 1,
      foldl_intakeStep_invalid [] gs [{ file := f, stats := analyzeFile f }] 0 0]
    omega

/-- Witness for claim C4: a concrete PDF file uploaded twice gives one
accepted document and one duplicate entry. -/
theorem duplicate_upload_detected_witness :
    isValidFileType
        { name := "bol.pdf", type := "application/pdf", size := 150000, lastModified := 7 }
        = true ∧
      (addDocuments []
        [{ name := "bol.pdf", type := "application/pdf", size := 150000, lastModified := 7 },
         { name := "bol.pdf", type := "application/pdf", size := 150000,
           lastModified := 7 }]).validFiles.length = 1 ∧
      (addDocuments []
        [{ name := "bol.pdf", type := "application/pdf", size := 150000, lastModified := 7 },
         { name := "bol.pdf", type := "application/pdf", size := 150000,
           lastModified := 7 }]).duplicateCount = 1 := by
  have h := duplicate_upload_detected
    { name := "bol.pdf", type := "application/pdf", size := 150000, lastModified := 7 }
    { name := "bol.pdf", type := "application/pdf", size := 150000, lastModified := 7 }
    [] (by decide)
  exact ⟨by decide, h.2.1, h.2.2.1⟩

/-- Claim C5: a file whose declared type and extension both fail to resolve
to PDF or Excel contributes no accepted document, increments the
invalid/skipped counter by one, and leaves the processing of every other
file of the batch unchanged. -/
theorem invalid_file_skipped_nonfatal (f : File) (existing : List DocumentData)
    (fs1 fs2 : List File) (hinv : isValidFileType f = false) :
    (addDocuments existing (fs1 ++ f :: fs2)).validFiles =
        (addDocuments existing (fs1 ++ fs2)).validFiles ∧
      (addDocuments existing (fs1 ++ f :: fs2)).invalidCount =
        (addDocuments existing (fs1 ++ fs2)).invalidCount + 1 ∧
      (addDocuments existing (fs1 ++ f :: fs2)).duplicateCount =
        (addDocuments existing (fs1 ++ fs2)).duplicateCount := by
  set A := List.foldl (intakeStep existing) {} fs1 with hA
  have hstep : intakeStep existing A f =
      ⟨A.validFiles, A.invalidCount + 1, A.duplicateCount⟩ := by
    rw [intakeStep, if_neg (by rw [hinv]; exact Bool.false_ne_true)]
  have hL : addDocuments existing (fs1 ++ f :: fs2) =
      fs2.foldl (intakeStep existing) ⟨A.validFiles, A.invalidCount + 1, A.duplicateCount⟩ := by
    rw [addDocuments, List.foldl_append, List.foldl_cons, ← hA, hstep]
  have hR : addDocuments existing (fs1 ++ fs2) =
      fs2.foldl (intakeStep existing) ⟨A.validFiles, A.invalidCount, A.duplicateCount⟩ := by
    rw [addDocuments, List.foldl_append, ← hA]
  refine ⟨?_, ?_, ?_⟩
  · rw [hL, hR]
    rw [foldl_intakeStep_valid existing fs2 A.validFiles (A.invalidCount + 1) A.duplicateCount,
      foldl_intakeStep_valid existing fs2 A.validFiles A.invalidCount A.duplicateCount]
  · rw [hL, hR,
      foldl_intakeStep_invalid existing fs2 A.validFiles (A.invalidCount + 1) A.duplicateCount,
      foldl_intakeStep_invalid existing fs2 A.validFiles A.invalidCount A.duplicateCount]
    omega
  · rw [hL, hR,
      foldl_intakeStep_dup existing fs2 A.validFiles (A.invalidCount + 1) A.duplicateCount,
      foldl_intakeStep_dup existing fs2 A.validFiles A.invalidCount A.duplicateCount]

/-- Witness for claim C5: a concrete text file in the middle of a batch of
two PDFs is skipped as invalid while both PDFs are still accepted. -/
theorem invalid_file_skipped_nonfatal_witness :
    isValidFileType
        { name := "note.txt", type := "text/plain", size := 10, lastModified := 1 }
        = false ∧
      (addDocuments []
          [{ name := "a.pdf", type := "application/pdf", size := 10, lastModified := 1 },
           { name := "note.txt", type := "text/plain", size := 10, lastModified := 1 },
           { name := "b.pdf", type := "application/pdf", size := 20, lastModified := 2 }]).validFiles =
        (addDocuments []
          [{ name := "a.pdf", type := "application/pdf", size := 10, lastModified := 1 },
           { name := "b.pdf", type := "application/pdf", size := 20, lastModified := 2 }]).validFiles ∧
      (addDocuments []
          [{ name := "a.pdf", type := "application/pdf", size := 10, lastModified := 1 },
           { name := "note.txt", type := "text/plain", size := 10, lastModified := 1 },
           { name := "b.pdf", type := "application/pdf", size := 20, lastModified := 2 }]).invalidCount =
        (addDocuments []
          [{ name := "a.pdf", type := "application/pdf", size := 10, lastModified := 1 },
           { name := "b.pdf", type := "application/pdf", size := 20, lastModified := 2 }]).invalidCount + 1 := by
  have h := invalid_file_skipped_nonfatal
    { name := "note.txt", type := "text/plain", size := 10, lastModified := 1 } []
    [{ name := "a.pdf", type := "application/pdf", size := 10, lastModified := 1 }]
    [{ name := "b.pdf", type := "application/pdf", size := 20, lastModified := 2 }]
    (by decide)
  exact ⟨by decide, h.1, h.2.1⟩

/-- The oracle response body: the endpoint may return one record or an
array of per-document records (useDocuments.ts line 174). -/
inductive ApiResponse where
  | single : ExtractedData → ApiResponse
  | multiple : List ExtractedData → ApiResponse
  deriving DecidableEq, Repr

/-- The `DocumentProcessingState` held by the `useDocuments` hook. -/
structure DocumentProcessingState where
  documents : List DocumentData := []
  currentIndex : ℕ := 0
  isProcessing : Bool := false
  aggregatedFormData : Option AggregatedForm := none
  deriving DecidableEq, Repr

/-- Embedding of `processDocuments` (useDocuments.ts lines 152–203) as a
function of the current state and the outcome of the single joint fetch:
`Except.error` covers a transport error, a non-OK status (the code throws
on `!response.ok`) and a JSON parse failure; on success each document gets
its per-index record (`data[index]` for an array, the whole object for
index 0 otherwise) and the aggregated form is rebuilt; on failure only the
in-progress flag is cleared. -/
def processDocuments (st : DocumentProcessingState)
    (resp : Except String ApiResponse) : DocumentProcessingState :=
  if st.documents.isEmpty then st
  else
    match resp with
    | .error _ => { st with isProcessing := false }
    | .ok data =>
      let processedDocuments := st.documents.mapIdx (fun index doc =>
        { doc with
          rawApiData :=
            match data with
            | .multiple l => l[index]?
            | .single d => if index = 0 then some d else none
          isProcessed := true })
      { st with
        documents := processedDocuments
        aggregatedFormData :=
          some (aggregateExtractedData (processedDocuments.map (fun doc => doc.rawApiData)))
        isProcessing := false }

/-- Claim C9: when the joint extraction call fails, the request fails as one
unit — the document list and any previously aggregated form data are left
unchanged (no partial shipment record is produced), the current index is
untouched, and only the in-progress flag is cleared. -/
theorem oracle_failure_is_atomic (st : DocumentProcessingState) (e : String)
    (hne : st.documents ≠ []) :
    (processDocuments st (.error e)).documents = st.documents ∧
      (processDocuments st (.error e)).aggregatedFormData = st.aggregatedFormData ∧
      (processDocuments st (.error e)).currentIndex = st.currentIndex ∧
      (processDocuments st (.error e)).isProcessing = false := by
  rw [processDocuments, if_neg (by simpa using hne)]
  exact ⟨rfl, rfl, rfl, rfl⟩

/-- Witness for claim C9 at a concrete one-document state with a concrete
failure message. -/
theorem oracle_failure_is_atomic_witness :
    ({ documents :=
        [{ file := { name := "bol.pdf", type := "application/pdf", size := 150000,
                     lastModified := 7 }
           stats := analyzeFile { name := "bol.pdf", type := "application/pdf",
                                  size := 150000, lastModified := 7 } }]
       isProcessing := true } : DocumentProcessingState).documents ≠ [] ∧
      (processDocuments
        { documents :=
            [{ file := { name := "bol.pdf", type := "application/pdf", size := 150000,
                         lastModified := 7 }
               stats := analyzeFile { name := "bol.pdf", type := "application/pdf",
                                      size := 150000, lastModified := 7 } }]
          isProcessing := true }
        (.error "HTTP error! status: 500")).isProcessing = false := by
  refine ⟨by simp, ?_⟩
  exact (oracle_failure_is_atomic
    { documents :=
        [{ file := { name := "bol.pdf", type := "application/pdf", size := 150000,
                     lastModified := 7 }
           stats := analyzeFile { name := "bol.pdf", type := "application/pdf",
                                  size := 150000, lastModified := 7 } }]
      isProcessing := true }
    "HTTP error! status: 500" (by simp)).2.2.2

end ShipDocs
